import Mathlib

/-!
Verification of the signal-engine analysis core (signal_engine.py) against its
specification.  The engine is embedded shallowly over exact rationals: every
indicator (EMA, RSI, ATR, rolling volume mean) follows the formulas of the
`ta` library calls made by `compute_indicators`, and `analyze` mirrors
`analyze_symbol` with the two market-data fetches made explicit parameters
(an `Except` models a fetch that may raise).  Values that pandas leaves as
NaN (indicators before their window) are modelled as `Option.none`, and
comparisons against `none` are `false`, matching Python NaN comparison
semantics.  The free-text reasoning column of the result dictionary is the
only field not modelled (it is cosmetic, per spec section 9, and no claim
mentions it).
-/

namespace SignalEngine

/- Batteries marks the rational arithmetic operations irreducible, which
blocks term evaluation by `decide`; soften them for this file so concrete
runs of the engine reduce. -/
attribute [local semireducible] Rat.add Rat.mul Rat.sub Rat.inv

/-- One OHLCV candle (the timestamp index is irrelevant to the engine). -/
structure Candle where
  opn : ℚ
  high : ℚ
  low : ℚ
  close : ℚ
  volume : ℚ
deriving DecidableEq, Repr

/-- Value at the last index of `ewm(adjust := False)` with smoothing factor
`a`, i.e. the recursion y0 = x0, y := y + a * (x - y) run over the list. -/
def ewmLast (a : ℚ) : List ℚ → ℚ
  | [] => 0
  | c :: cs => cs.foldl (fun y x => y + a * (x - y)) c

/-- `EMAIndicator(close, window = w).ema_indicator()` at the last index:
pandas `ewm(span := w, min_periods := w, adjust := False)`; NaN (none) while
fewer than `w` observations exist. -/
def emaLast (w : ℕ) (closes : List ℚ) : Option ℚ :=
  if w ≤ closes.length then some (ewmLast (2 / (w + 1)) closes) else none

/-- The same EMA column read at the second-to-last index (`iat[-2]`): the
`adjust := False` recursion at index n-2 only depends on the prefix. -/
def emaPrev (w : ℕ) (closes : List ℚ) : Option ℚ :=
  emaLast w closes.dropLast

/-- First differences of a series (`close.diff(1)` without the leading NaN). -/
def diffs (l : List ℚ) : List ℚ :=
  l.tail.zipWith (fun a b => a - b) l

/-- `diff.where(diff > 0, 0.0)`: the leading NaN becomes 0, ups kept. -/
def upMoves (closes : List ℚ) : List ℚ :=
  0 :: (diffs closes).map (fun d => max d 0)

/-- `-diff.where(diff < 0, 0.0)`: the leading NaN becomes 0, downs kept. -/
def downMoves (closes : List ℚ) : List ℚ :=
  0 :: (diffs closes).map (fun d => max (-d) 0)

/-- `RSIIndicator(close, window = 14).rsi()` at the last index: Wilder
smoothing (`ewm(alpha := 1/14, min_periods := 14, adjust := False)`) of up
and down moves; 100 when the down average is zero, NaN before 14 candles. -/
def rsiLast (closes : List ℚ) : Option ℚ :=
  if 14 ≤ closes.length then
    let u := ewmLast (1 / 14) (upMoves closes)
    let d := ewmLast (1 / 14) (downMoves closes)
    some (if d = 0 then 100 else 100 - 100 / (1 + u / d))
  else none

/-- True ranges after the first row: max(high - low, abs (high - prevClose),
abs (low - prevClose)). -/
def trAux : Candle → List Candle → List ℚ
  | _, [] => []
  | pc, c :: cs =>
    max (c.high - c.low) (max |c.high - pc.close| |c.low - pc.close|) :: trAux c cs

/-- The true-range column of `AverageTrueRange`: on the first row the shifted
close is NaN and the row maximum is just high - low. -/
def trueRanges : List Candle → List ℚ
  | [] => []
  | c :: cs => (c.high - c.low) :: trAux c cs

/-- Arithmetic mean (only ever applied to nonempty lists). -/
def mean (l : List ℚ) : ℚ := l.sum / l.length

/-- `AverageTrueRange(high, low, close, window = 14).average_true_range()` at
the last index: seed with the mean of the first 14 true ranges, then Wilder
recursion atr := (13 * atr + tr) / 14; the numpy write `atr[13] = ...` fails
on shorter input, which never happens on the primary path. -/
def atrLast (df : List Candle) : Option ℚ :=
  if 14 ≤ df.length then
    let t := trueRanges df
    some ((t.drop 14).foldl (fun a x => (13 * a + x) / 14) (mean (t.take 14)))
  else none

/-- `volume.rolling(window = 20, min_periods = 1).mean()` at the last index:
mean of the trailing `min 20 n` volumes; defined for every nonempty series. -/
def volSmaLast (df : List Candle) : ℚ :=
  let vols := df.map Candle.volume
  mean (vols.drop (vols.length - 20))

/-- Python `a > b` where either operand may be NaN: NaN comparisons are false. -/
def optGT : Option ℚ → Option ℚ → Bool
  | some a, some b => decide (b < a)
  | _, _ => false

/-- Python `a < b` with NaN-is-false semantics. -/
def optLT : Option ℚ → Option ℚ → Bool
  | some a, some b => decide (a < b)
  | _, _ => false

/-- Python `a <= b` with NaN-is-false semantics. -/
def optLE : Option ℚ → Option ℚ → Bool
  | some a, some b => decide (a ≤ b)
  | _, _ => false

/-- Python `a >= b` with NaN-is-false semantics. -/
def optGE : Option ℚ → Option ℚ → Bool
  | some a, some b => decide (b ≤ a)
  | _, _ => false

/-- `detect_bullish_cross`: fast EMA above slow at the last index and not
above at the second-to-last; false on series shorter than 2. -/
def detect_bullish_cross (df : List Candle) : Bool :=
  if df.length < 2 then false
  else
    let closes := df.map Candle.close
    optGT (emaLast 50 closes) (emaLast 200 closes) &&
      optLE (emaPrev 50 closes) (emaPrev 200 closes)

/-- `detect_bearish_cross`: the mirror condition. -/
def detect_bearish_cross (df : List Candle) : Bool :=
  if df.length < 2 then false
  else
    let closes := df.map Candle.close
    optLT (emaLast 50 closes) (emaLast 200 closes) &&
      optGE (emaPrev 50 closes) (emaPrev 200 closes)

/-- Verdict of an analysis result; ERROR stands for the error dictionary. -/
inductive Verdict where
  | LONG
  | SHORT
  | NO_SIGNAL
  | ERROR
deriving DecidableEq, Repr

/-- The result dictionary of `analyze_symbol`.  Absent keys (stop/tp on a
no-signal result, every numeric field on an error result) are `none`,
matching `dict.get`. -/
structure AResult where
  symbol : String
  verdict : Verdict
  entry : Option ℚ
  stop : Option ℚ
  tp : Option ℚ
  rsi : Option ℚ
  atr : Option ℚ
  vol : Option ℚ
  errMsg : Option String
deriving DecidableEq, Repr

/-- The `{"symbol": ..., "error": ...}` dictionary. -/
def errResult (sym msg : String) : AResult :=
  ⟨sym, Verdict.ERROR, none, none, none, none, none, none, some msg⟩

/-- Round to the nearest integer, halves to even (Python float `round`). -/
def rhe (q : ℚ) : ℤ :=
  if q - ⌊q⌋ < 1 / 2 then ⌊q⌋
  else if (1 : ℚ) / 2 < q - ⌊q⌋ then ⌊q⌋ + 1
  else if ⌊q⌋ % 2 = 0 then ⌊q⌋ else ⌊q⌋ + 1

/-- `round(x, 8)`. -/
def round8 (q : ℚ) : ℚ := (rhe (q * 100000000) : ℚ) / 100000000

/-- `float(last["close"])` of a series. -/
def entryVal (df : List Candle) : ℚ := (df.map Candle.close).getLastD 0

/-- The `rsi` local: last RSI, neutral 50 when NaN. -/
def rsiVal (df : List Candle) : ℚ := (rsiLast (df.map Candle.close)).getD 50

/-- The `atr` local: last ATR, `max(entry * 0.002, 0.0)` when NaN. -/
def atrVal (df : List Candle) : ℚ :=
  (atrLast df).getD (max (entryVal df * (2 / 1000)) 0)

/-- The `vol_ok` local, line 52: volume above 1.2 times the rolling baseline
when the baseline is positive, otherwise volume above literal 0. -/
def volOkFlag (df : List Candle) : Bool :=
  decide ((df.map Candle.volume).getLastD 0 >
    (if volSmaLast df > 0 then volSmaLast df * (6 / 5) else 0))

/-- The best-effort 1m confirmation.  A failed fetch is `Except.error`; on a
fetched series shorter than 14 the ATR computation inside
`compute_indicators` raises (numpy index assignment), which the bare
`except` also turns into `true`.  On longer series the flag is
`close[-1] > ema50[-1]`, which is false when the EMA is still NaN. -/
def confirm1m : Except String (List Candle) → Bool
  | .error _ => true
  | .ok df1 =>
    if df1.length < 14 then true
    else
      let closes := df1.map Candle.close
      match emaLast 50 closes with
      | none => false
      | some e => decide (closes.getLastD 0 > e)

/-- The LONG guard of the decision chain. -/
def longCond (df : List Candle) (s : Except String (List Candle)) : Bool :=
  detect_bullish_cross df && decide (rsiVal df < 40) && volOkFlag df && confirm1m s

/-- The SHORT guard of the decision chain. -/
def shortCond (df : List Candle) (s : Except String (List Candle)) : Bool :=
  detect_bearish_cross df && decide (60 < rsiVal df) && volOkFlag df && !(confirm1m s)

/-- The success-path result for a primary series of at least 60 candles. -/
def analyzeOk (sym : String) (df : List Candle)
    (s : Except String (List Candle)) : AResult :=
  let entry := entryVal df
  let rsi := rsiVal df
  let atr := atrVal df
  let lastVol : ℚ := (df.map Candle.volume).getLastD 0
  if longCond df s then
    let stop := entry - atr * (3 / 2)
    let tp := entry + (entry - stop) * 2
    { symbol := sym, verdict := Verdict.LONG, entry := some (round8 entry),
      stop := some (round8 stop), tp := some (round8 tp), rsi := some rsi,
      atr := some atr, vol := some lastVol, errMsg := none }
  else if shortCond df s then
    let stop := entry + atr * (3 / 2)
    let tp := entry - (stop - entry) * 2
    { symbol := sym, verdict := Verdict.SHORT, entry := some (round8 entry),
      stop := some (round8 stop), tp := some (round8 tp), rsi := some rsi,
      atr := some atr, vol := some lastVol, errMsg := none }
  else
    { symbol := sym, verdict := Verdict.NO_SIGNAL, entry := some (round8 entry),
      stop := none, tp := none, rsi := some rsi,
      atr := some atr, vol := some lastVol, errMsg := none }

/-- `analyze_symbol`.  The primary fetch may raise (`Except.error`, caught by
the outer handler), return `None`, or return a series; the secondary fetch is
passed through to the best-effort confirmation. -/
def analyze (sym : String) (primary : Except String (Option (List Candle)))
    (secondary : Except String (List Candle)) : AResult :=
  match primary with
  | .error e => errResult sym e
  | .ok none => errResult sym "not enough data"
  | .ok (some df) =>
    if df.length < 60 then errResult sym "not enough data"
    else analyzeOk sym df secondary

/-! Concrete candle series used as witnesses and counterexamples. -/

/-- A flat 60-candle series: constant price 100, volume 1. -/
def flat60 : List Candle :=
  List.replicate 60 { opn := 100, high := 100, low := 100, close := 100, volume := 1 }

/-- A 60-candle series whose volumes are all zero, so the rolling volume
baseline at the last index is zero. -/
def zeroVol60 : List Candle :=
  List.replicate 60 { opn := 100, high := 100, low := 100, close := 100, volume := 0 }

/-- Closes of a 250-candle series that produces a bullish cross on the last
two indices together with RSI below 40: one large drop at index 1, a unit
rise at index 225, and a small final drop at index 249 that completes the
crossover by weight shift alone. -/
def ceClose (i : ℕ) : ℚ :=
  if i = 0 then 100
  else if i ≤ 224 then 9517 / 100
  else if i ≤ 248 then 9617 / 100
  else 9587 / 100

/-- Candle `i` of the crossing series: high and low both pinned to the
previous close, so every true range is zero and the ATR vanishes; the last
candle carries volume 100 against baseline volume 1. -/
def ceCandle (i : ℕ) : Candle :=
  { opn := ceClose (i - 1), high := ceClose (i - 1), low := ceClose (i - 1),
    close := ceClose i, volume := if i = 249 then 100 else 1 }

/-- A 250-candle series on which the LONG branch fires with ATR zero. -/
def ceSeries : List Candle := (List.range 250).map ceCandle

/-! Helper lemmas about the decision chain. -/

theorem analyzeOk_verdict (sym : String) (df : List Candle)
    (s : Except String (List Candle)) :
    (analyzeOk sym df s).verdict =
      (if longCond df s then Verdict.LONG
       else if shortCond df s then Verdict.SHORT else Verdict.NO_SIGNAL) := by
  unfold analyzeOk
  split <;> [rfl; split <;> rfl]

theorem analyzeOk_stop (sym : String) (df : List Candle)
    (s : Except String (List Candle)) :
    (analyzeOk sym df s).stop =
      (if longCond df s then some (round8 (entryVal df - atrVal df * (3 / 2)))
       else if shortCond df s then some (round8 (entryVal df + atrVal df * (3 / 2)))
       else none) := by
  unfold analyzeOk
  split <;> [rfl; split <;> rfl]

theorem analyzeOk_tp (sym : String) (df : List Candle)
    (s : Except String (List Candle)) :
    (analyzeOk sym df s).tp =
      (if longCond df s then
        some (round8 (entryVal df + (entryVal df - (entryVal df - atrVal df * (3 / 2))) * 2))
       else if shortCond df s then
        some (round8 (entryVal df - (entryVal df + atrVal df * (3 / 2) - entryVal df) * 2))
       else none) := by
  unfold analyzeOk
  split <;> [rfl; split <;> rfl]

theorem analyzeOk_entry (sym : String) (df : List Candle)
    (s : Except String (List Candle)) :
    (analyzeOk sym df s).entry = some (round8 (entryVal df)) := by
  unfold analyzeOk
  split <;> [rfl; split <;> rfl]

theorem analyzeOk_rsi (sym : String) (df : List Candle)
    (s : Except String (List Candle)) :
    (analyzeOk sym df s).rsi = some (rsiVal df) := by
  unfold analyzeOk
  split <;> [rfl; split <;> rfl]

theorem analyzeOk_verdict_ne_error (sym : String) (df : List Candle)
    (s : Except String (List Candle)) :
    (analyzeOk sym df s).verdict ≠ Verdict.ERROR := by
  rw [analyzeOk_verdict]
  split <;> [simp; split <;> simp]

theorem analyze_of_len (sym : String) (df : List Candle)
    (s : Except String (List Candle)) (h : 60 ≤ df.length) :
    analyze sym (.ok (some df)) s = analyzeOk sym df s := by
  unfold analyze
  dsimp only
  rw [if_neg (by omega)]

/-! Properties of half-to-even rounding. -/

theorem floor_le_rhe (q : ℚ) : ⌊q⌋ ≤ rhe q := by
  unfold rhe
  split_ifs <;> omega

theorem rhe_le_floor_add_one (q : ℚ) : rhe q ≤ ⌊q⌋ + 1 := by
  unfold rhe
  split_ifs <;> omega

theorem abs_rhe_sub (q : ℚ) : |(rhe q : ℚ) - q| ≤ 1 / 2 := by
  have h0 : (⌊q⌋ : ℚ) ≤ q := Int.floor_le q
  have h1 : q < ⌊q⌋ + 1 := Int.lt_floor_add_one q
  unfold rhe
  split_ifs with ha hb hc <;> rw [abs_le] <;> constructor <;> push_cast <;> linarith

theorem rhe_mono {p q : ℚ} (h : p ≤ q) : rhe p ≤ rhe q := by
  have hf : ⌊p⌋ ≤ ⌊q⌋ := Int.floor_le_floor h
  rcases lt_or_eq_of_le hf with hlt | heq
  · have h1 := rhe_le_floor_add_one p
    have h2 := floor_le_rhe q
    omega
  · unfold rhe
    rw [heq]
    have hc : (⌊p⌋ : ℚ) = (⌊q⌋ : ℚ) := by exact_mod_cast congrArg Int.cast heq
    split_ifs <;> first
      | omega
      | (exfalso; rw [hc] at *; linarith)

theorem round8_mono {p q : ℚ} (h : p ≤ q) : round8 p ≤ round8 q := by
  unfold round8
  have h1 : p * 100000000 ≤ q * 100000000 := by nlinarith
  have h2 : (rhe (p * 100000000) : ℚ) ≤ (rhe (q * 100000000) : ℚ) :=
    Int.cast_le.mpr (rhe_mono h1)
  gcongr

theorem abs_round8_sub (q : ℚ) : |round8 q - q| ≤ 1 / 200000000 := by
  have h : round8 q - q = ((rhe (q * 100000000) : ℚ) - q * 100000000) / 100000000 := by
    unfold round8
    field_simp
    ring
  rw [h, abs_div, abs_of_pos (show (0 : ℚ) < 100000000 by norm_num)]
  calc |(rhe (q * 100000000) : ℚ) - q * 100000000| / 100000000
      ≤ (1 / 2) / 100000000 := by
        gcongr
        exact abs_rhe_sub (q * 100000000)
    _ = 1 / 200000000 := by norm_num

/-! Nonnegativity of the modelled indicators. -/

theorem trAux_nonneg (pc : Candle) (l : List Candle) :
    ∀ x ∈ trAux pc l, 0 ≤ x := by
  induction l generalizing pc with
  | nil => intro x hx; cases hx
  | cons c cs ih =>
    intro x hx
    rcases List.mem_cons.mp hx with hx | hx
    · subst hx
      exact le_trans (le_trans (abs_nonneg _) (le_max_left _ _)) (le_max_right _ _)
    · exact ih c x hx

theorem trueRanges_nonneg {df : List Candle}
    (hlh : ∀ c ∈ df, c.low ≤ c.high) :
    ∀ x ∈ trueRanges df, 0 ≤ x := by
  cases df with
  | nil => intro x hx; cases hx
  | cons c cs =>
    intro x hx
    rcases List.mem_cons.mp hx with hx | hx
    · subst hx
      have := hlh c (List.mem_cons_self c cs)
      linarith
    · exact trAux_nonneg c cs x hx

theorem mean_nonneg {l : List ℚ} (h : ∀ x ∈ l, 0 ≤ x) : 0 ≤ mean l := by
  unfold mean
  exact div_nonneg (List.sum_nonneg h) (by positivity)

theorem wilder_foldl_nonneg (l : List ℚ) (a : ℚ) (ha : 0 ≤ a)
    (hl : ∀ x ∈ l, 0 ≤ x) :
    0 ≤ l.foldl (fun a x => (13 * a + x) / 14) a := by
  induction l generalizing a with
  | nil => exact ha
  | cons x xs ih =>
    apply ih
    · have hx : 0 ≤ x := hl x (List.mem_cons_self x xs)
      positivity
    · intro y hy; exact hl y (List.mem_cons_of_mem _ hy)

theorem atrVal_nonneg {df : List Candle}
    (hlh : ∀ c ∈ df, c.low ≤ c.high) : 0 ≤ atrVal df := by
  unfold atrVal
  rcases hA : atrLast df with _ | a
  · simp only [Option.getD_none]
    exact le_max_right _ _
  · simp only [Option.getD_some]
    unfold atrLast at hA
    split_ifs at hA with h14
    · injection hA with hA
      rw [← hA]
      apply wilder_foldl_nonneg
      · exact mean_nonneg fun x hx =>
          trueRanges_nonneg hlh x ((List.take_sublist _ _).mem hx)
      · intro x hx
        exact trueRanges_nonneg hlh x ((List.drop_sublist _ _).mem hx)

/-- One ewm step keeps nonnegativity for a smoothing factor in the unit interval. -/
theorem ewmLast_nonneg {a : ℚ} (h0 : 0 ≤ a) (h1 : a ≤ 1) {l : List ℚ}
    (hl : ∀ x ∈ l, 0 ≤ x) : 0 ≤ ewmLast a l := by
  cases l with
  | nil => exact le_refl 0
  | cons c cs =>
    unfold ewmLast
    have hc : 0 ≤ c := hl c (List.mem_cons_self c cs)
    have step : ∀ y x : ℚ, 0 ≤ y → 0 ≤ x → 0 ≤ y + a * (x - y) := by
      intro y x hy hx
      have hrw : y + a * (x - y) = (1 - a) * y + a * x := by ring
      rw [hrw]
      have := mul_nonneg (sub_nonneg.mpr h1) hy
      have := mul_nonneg h0 hx
      linarith
    have : ∀ (ys : List ℚ) (y : ℚ), 0 ≤ y → (∀ x ∈ ys, 0 ≤ x) →
        0 ≤ ys.foldl (fun y x => y + a * (x - y)) y := by
      intro ys
      induction ys with
      | nil => intro y hy _; exact hy
      | cons x xs ih =>
        intro y hy hmem
        exact ih _ (step y x hy (hmem x (List.mem_cons_self x xs)))
          fun z hz => hmem z (List.mem_cons_of_mem _ hz)
    exact this cs c hc fun x hx => hl x (List.mem_cons_of_mem _ hx)

theorem upMoves_nonneg (closes : List ℚ) : ∀ x ∈ upMoves closes, 0 ≤ x := by
  intro x hx
  rcases List.mem_cons.mp hx with hx | hx
  · subst hx; exact le_refl 0
  · obtain ⟨d, _, rfl⟩ := List.mem_map.mp hx
    exact le_max_right _ _

theorem downMoves_nonneg (closes : List ℚ) : ∀ x ∈ downMoves closes, 0 ≤ x := by
  intro x hx
  rcases List.mem_cons.mp hx with hx | hx
  · subst hx; exact le_refl 0
  · obtain ⟨d, _, rfl⟩ := List.mem_map.mp hx
    exact le_max_right _ _

/-- The RSI value is within the unit-oscillator band whenever it is defined. -/
theorem rsiLast_bounds {closes : List ℚ} {v : ℚ}
    (h : rsiLast closes = some v) : 0 ≤ v ∧ v ≤ 100 := by
  unfold rsiLast at h
  split_ifs at h with h14
  injection h with h
  set u := ewmLast (1 / 14) (upMoves closes) with hu
  set d := ewmLast (1 / 14) (downMoves closes) with hd
  have hun : 0 ≤ u := ewmLast_nonneg (by norm_num) (by norm_num) (upMoves_nonneg closes)
  have hdn : 0 ≤ d := ewmLast_nonneg (by norm_num) (by norm_num) (downMoves_nonneg closes)
  rw [← h]
  split_ifs with hz
  · norm_num
  · have hdpos : 0 < d := lt_of_le_of_ne hdn (Ne.symm hz)
    have hratio : 0 ≤ u / d := div_nonneg hun hdn
    have hden : (1 : ℚ) ≤ 1 + u / d := by linarith
    have hfrac_pos : 0 < 100 / (1 + u / d) := by positivity
    have hfrac_le : 100 / (1 + u / d) ≤ 100 := by
      rw [div_le_iff₀ (by linarith)]
      nlinarith
    constructor <;> linarith

/-! Small facts about NaN-style comparisons. -/

theorem optGT_none_right (a : Option ℚ) : optGT a none = false := by
  cases a <;> rfl

theorem optLE_none_right (a : Option ℚ) : optLE a none = false := by
  cases a <;> rfl

theorem optGT_true_optLT_false {a b : Option ℚ} (h : optGT a b = true) :
    optLT a b = false := by
  cases a with
  | none => cases h
  | some x =>
    cases b with
    | none => cases h
    | some y =>
      simp only [optGT, decide_eq_true_eq] at h
      simp only [optLT, decide_eq_false_iff_not]
      exact fun hlt => lt_asymm h hlt

/-- The result only depends on the secondary series through the confirmation flag. -/
theorem analyzeOk_congr_confirm (sym : String) (df : List Candle)
    {s s2 : Except String (List Candle)} (h : confirm1m s = confirm1m s2) :
    analyzeOk sym df s = analyzeOk sym df s2 := by
  unfold analyzeOk longCond shortCond
  rw [h]

/-- Claim C10: for every series with fewer than 2 entries, both crossover
detectors return false (no crossover) rather than raising an error. -/
theorem short_series_no_crossover (df : List Candle) (h : df.length < 2) :
    detect_bullish_cross df = false ∧ detect_bearish_cross df = false := by
  constructor
  · unfold detect_bullish_cross
    rw [if_pos h]
  · unfold detect_bearish_cross
    rw [if_pos h]

/-- Witness for C10: the empty series reports no crossover in either direction. -/
theorem short_series_no_crossover_witness :
    detect_bullish_cross [] = false ∧ detect_bearish_cross [] = false :=
  short_series_no_crossover [] (by decide)

/-- Claim C8: the bullish-cross and bearish-cross detectors are never both
true on the same input. -/
theorem crosses_mutually_exclusive (df : List Candle) :
    (detect_bullish_cross df && detect_bearish_cross df) = false := by
  unfold detect_bullish_cross detect_bearish_cross
  split
  · simp
  · dsimp only
    cases hgt : optGT (emaLast 50 (df.map Candle.close)) (emaLast 200 (df.map Candle.close)) with
    | false => simp [hgt]
    | true =>
      have hlt := optGT_true_optLT_false hgt
      simp [hlt]

/-- Claim C2: stop and take-profit are present (non-none) exactly when the
verdict is LONG or SHORT, and both absent exactly when the verdict is
NO_SIGNAL or ERROR. -/
theorem stop_tp_present_iff_directional (sym : String)
    (p : Except String (Option (List Candle))) (s : Except String (List Candle)) :
    (((analyze sym p s).stop ≠ none ∧ (analyze sym p s).tp ≠ none) ↔
      ((analyze sym p s).verdict = Verdict.LONG ∨
        (analyze sym p s).verdict = Verdict.SHORT)) ∧
    (((analyze sym p s).stop = none ∧ (analyze sym p s).tp = none) ↔
      ((analyze sym p s).verdict = Verdict.NO_SIGNAL ∨
        (analyze sym p s).verdict = Verdict.ERROR)) := by
  rcases p with msg | o
  · simp [analyze, errResult]
  · rcases o with _ | df
    · simp [analyze, errResult]
    · unfold analyze
      dsimp only
      by_cases h : df.length < 60
      · rw [if_pos h]
        simp [errResult]
      · rw [if_neg h, analyzeOk_stop, analyzeOk_tp, analyzeOk_verdict]
        by_cases hl : longCond df s
        · simp [hl]
        · by_cases hs : shortCond df s <;> simp [hl, hs]

/-- Claim C5: the analysis never propagates a failure. A raised primary
fetch becomes an ERROR result carrying the message, a missing or too-short
primary series becomes the insufficient-data ERROR result, and with at
least 60 candles the verdict is never ERROR. -/
theorem analyze_error_paths (sym : String)
    (p : Except String (Option (List Candle))) (s : Except String (List Candle)) :
    (∀ e, p = Except.error e → analyze sym p s = errResult sym e) ∧
    (p = Except.ok none → analyze sym p s = errResult sym "not enough data") ∧
    (∀ df, p = Except.ok (some df) → df.length < 60 →
      analyze sym p s = errResult sym "not enough data") ∧
    (∀ df, p = Except.ok (some df) → 60 ≤ df.length →
      (analyze sym p s).verdict ≠ Verdict.ERROR) := by
  refine ⟨?_, ?_, ?_, ?_⟩
  · intro e he
    subst he
    rfl
  · intro he
    subst he
    rfl
  · intro df he hlen
    subst he
    unfold analyze
    dsimp only
    rw [if_pos hlen]
  · intro df he hlen
    subst he
    rw [analyze_of_len sym df s hlen]
    exact analyzeOk_verdict_ne_error sym df s

/-- Witness for C5: a raised primary fetch and a one-candle primary series
both come back as ERROR results, with the raised message preserved. -/
theorem analyze_error_paths_witness :
    analyze "BTCUSDT" (Except.error "boom") (Except.error "x") =
      errResult "BTCUSDT" "boom" ∧
    analyze "BTCUSDT" (Except.ok (some flat60.tail)) (Except.error "x") =
      errResult "BTCUSDT" "not enough data" := by
  constructor
  · exact (analyze_error_paths "BTCUSDT" (Except.error "boom") (Except.error "x")).1
      "boom" rfl
  · exact (analyze_error_paths "BTCUSDT" (Except.ok (some flat60.tail))
      (Except.error "x")).2.2.1 flat60.tail rfl (by decide)

/-- Claim C6: a failing secondary fetch is absorbed: the confirmation
defaults to true, the analysis completes without an ERROR verdict, and the
result is the same as with any secondary input whose confirmation is true. -/
theorem secondary_failure_benign (sym : String) (df : List Candle) (e : String) :
    confirm1m (Except.error e) = true ∧
    (60 ≤ df.length →
      (analyze sym (.ok (some df)) (.error e)).verdict ≠ Verdict.ERROR) ∧
    (∀ s2, confirm1m s2 = true →
      analyze sym (.ok (some df)) (.error e) = analyze sym (.ok (some df)) s2) := by
  refine ⟨rfl, ?_, ?_⟩
  · intro hlen
    rw [analyze_of_len sym df _ hlen]
    exact analyzeOk_verdict_ne_error sym df _
  · intro s2 h2
    unfold analyze
    dsimp only
    by_cases hlen : df.length < 60
    · rw [if_pos hlen, if_pos hlen]
    · rw [if_neg hlen, if_neg hlen]
      exact analyzeOk_congr_confirm sym df (h2.symm ▸ rfl)

/-- Witness for C6: with a 60-candle primary series and a raised secondary
fetch, the analysis completes and agrees with an empty-secondary run. -/
theorem secondary_failure_benign_witness :
    confirm1m (Except.error "boom") = true ∧
    (analyze "BTCUSDT" (.ok (some flat60)) (.error "boom")).verdict ≠ Verdict.ERROR ∧
    analyze "BTCUSDT" (.ok (some flat60)) (.error "boom") =
      analyze "BTCUSDT" (.ok (some flat60)) (.ok []) := by
  have h := secondary_failure_benign "BTCUSDT" flat60 "boom"
  exact ⟨h.1, h.2.1 (by decide), h.2.2 (Except.ok []) (by decide)⟩

/-- Claim C9: on a sufficiently long primary series the analysis does not
fail, the reported momentum is the RSI with neutral default, the RSI is
within the 0 to 100 band whenever defined, and the default is exactly 50. -/
theorem momentum_bounds (sym : String) (df : List Candle)
    (s : Except String (List Candle)) (h60 : 60 ≤ df.length) :
    (analyze sym (.ok (some df)) s).verdict ≠ Verdict.ERROR ∧
    (analyze sym (.ok (some df)) s).rsi = some (rsiVal df) ∧
    (∀ v, rsiLast (df.map Candle.close) = some v → rsiVal df = v ∧ 0 ≤ v ∧ v ≤ 100) ∧
    (rsiLast (df.map Candle.close) = none → rsiVal df = 50) := by
  rw [analyze_of_len sym df s h60]
  refine ⟨analyzeOk_verdict_ne_error sym df s, analyzeOk_rsi sym df s, ?_, ?_⟩
  · intro v hv
    refine ⟨?_, rsiLast_bounds hv⟩
    unfold rsiVal
    rw [hv]
    rfl
  · intro hn
    unfold rsiVal
    rw [hn]
    rfl

/-- Witness for C9: the flat 60-candle series keeps its reported momentum in
band. -/
theorem momentum_bounds_witness :
    (analyze "BTCUSDT" (.ok (some flat60)) (.error "x")).verdict ≠ Verdict.ERROR ∧
    (analyze "BTCUSDT" (.ok (some flat60)) (.error "x")).rsi = some (rsiVal flat60) := by
  have h := momentum_bounds "BTCUSDT" flat60 (.error "x") (by decide)
  exact ⟨h.1, h.2.1⟩

/-- Claim C4: the verdict is SHORT exactly when the LONG rule did not fire,
a bearish cross is detected, momentum exceeds 60, volume is confirmed, and
the secondary confirmation is false. -/
theorem short_verdict_iff (sym : String) (df : List Candle)
    (s : Except String (List Candle)) (h60 : 60 ≤ df.length) :
    (analyze sym (.ok (some df)) s).verdict = Verdict.SHORT ↔
      (longCond df s = false ∧ detect_bearish_cross df = true ∧
        60 < rsiVal df ∧ volOkFlag df = true ∧ confirm1m s = false) := by
  rw [analyze_of_len sym df s h60, analyzeOk_verdict]
  constructor
  · intro h
    by_cases hl : longCond df s
    · simp [hl] at h
    · by_cases hs : shortCond df s
      · unfold shortCond at hs
        simp only [Bool.and_eq_true, decide_eq_true_eq, Bool.not_eq_true'] at hs
        exact ⟨Bool.eq_false_iff.mpr hl, hs.1.1.1, hs.1.1.2, hs.1.2, hs.2⟩
      · simp [hl, hs] at h
  · rintro ⟨hl, hb, hr, hv, hc⟩
    have hs : shortCond df s = true := by
      unfold shortCond
      rw [hb, hv, hc]
      simp [hr]
    simp [hl, hs]

/-- Witness for C4: the SHORT characterization instantiated on the flat
60-candle series. -/
theorem short_verdict_iff_witness :
    (analyze "BTCUSDT" (.ok (some flat60)) (.error "x")).verdict = Verdict.SHORT ↔
      (longCond flat60 (.error "x") = false ∧
        detect_bearish_cross flat60 = true ∧ 60 < rsiVal flat60 ∧
        volOkFlag flat60 = true ∧ confirm1m (Except.error "x") = false) :=
  short_verdict_iff "BTCUSDT" flat60 (.error "x") (by decide)

/-- Counterexample to claim C1 as stated: on a series whose volumes are all
zero the rolling baseline is zero, yet the volume-confirmation flag is
false, not automatically true. -/
theorem volOkFlag_zero_baseline_false :
    volSmaLast zeroVol60 = 0 ∧ volOkFlag zeroVol60 = false := by
  decide

/-- Claim C1 amended: when the baseline is positive the flag holds exactly
when the last volume exceeds 1.2 times the baseline; when the baseline is
zero (or negative) the flag holds exactly when the last volume is positive.
The baseline is never undefined because the rolling mean uses min-periods 1. -/
theorem volOkFlag_spec (df : List Candle) :
    (0 < volSmaLast df →
      (volOkFlag df = true ↔
        volSmaLast df * (6 / 5) < (df.map Candle.volume).getLastD 0)) ∧
    (volSmaLast df ≤ 0 →
      (volOkFlag df = true ↔ 0 < (df.map Candle.volume).getLastD 0)) := by
  constructor
  · intro h
    unfold volOkFlag
    rw [if_pos h]
    simp
  · intro h
    unfold volOkFlag
    rw [if_neg (not_lt.mpr h)]
    simp

/-- Witness for amended C1: the flat series has baseline 1, and the flag is
the strict comparison against 1.2. -/
theorem volOkFlag_spec_witness :
    0 < volSmaLast flat60 ∧
    (volOkFlag flat60 = true ↔
      volSmaLast flat60 * (6 / 5) < (flat60.map Candle.volume).getLastD 0) := by
  have h : 0 < volSmaLast flat60 := by decide
  exact ⟨h, (volOkFlag_spec flat60).1 h⟩

/-- Claim C7: when the slow EMA is undefined at the last or second-to-last
index (in particular on fewer than 200 candles) neither detector fires and
the verdict can only be NO_SIGNAL or ERROR. -/
theorem undefined_slow_ema_blocks_signals (sym : String) (df : List Candle)
    (s : Except String (List Candle)) :
    (df.length < 200 → emaLast 200 (df.map Candle.close) = none) ∧
    ((emaLast 200 (df.map Candle.close) = none ∨
        emaPrev 200 (df.map Candle.close) = none) →
      detect_bullish_cross df = false ∧ detect_bearish_cross df = false ∧
      (analyze sym (.ok (some df)) s).verdict ≠ Verdict.LONG ∧
      (analyze sym (.ok (some df)) s).verdict ≠ Verdict.SHORT) := by
  constructor
  · intro h
    unfold emaLast
    rw [if_neg (by simp only [List.length_map]; omega)]
  · intro h
    have hbull : detect_bullish_cross df = false := by
      unfold detect_bullish_cross
      split
      · rfl
      · dsimp only
        rcases h with h | h
        · rw [h, optGT_none_right, Bool.false_and]
        · rw [h, optLE_none_right, Bool.and_false]
    have hbear : detect_bearish_cross df = false := by
      unfold detect_bearish_cross
      split
      · rfl
      · dsimp only
        rcases h with h | h
        · rw [h]
          cases emaLast 50 (df.map Candle.close) <;> rfl
        · rw [h]
          cases emaPrev 50 (df.map Candle.close) <;> simp [optGE]
    have hlong : longCond df s = false := by
      unfold longCond
      rw [hbull, Bool.false_and, Bool.false_and, Bool.false_and]
    have hshort : shortCond df s = false := by
      unfold shortCond
      rw [hbear, Bool.false_and, Bool.false_and, Bool.false_and]
    refine ⟨hbull, hbear, ?_, ?_⟩ <;>
      by_cases hlen : df.length < 60
    · unfold analyze
      dsimp only
      rw [if_pos hlen]
      simp [errResult]
    · rw [analyze_of_len sym df s (by omega), analyzeOk_verdict, hlong, hshort]
      simp
    · unfold analyze
      dsimp only
      rw [if_pos hlen]
      simp [errResult]
    · rw [analyze_of_len sym df s (by omega), analyzeOk_verdict, hlong, hshort]
      simp

/-- Witness for C7: the flat 60-candle series has no slow EMA and therefore
no directional verdict. -/
theorem undefined_slow_ema_blocks_signals_witness :
    emaLast 200 (flat60.map Candle.close) = none ∧
    detect_bullish_cross flat60 = false ∧
    (analyze "BTCUSDT" (.ok (some flat60)) (.error "x")).verdict ≠ Verdict.LONG := by
  have h := undefined_slow_ema_blocks_signals "BTCUSDT" flat60 (.error "x")
  have h1 := h.1 (by decide)
  have h2 := h.2 (Or.inl h1)
  exact ⟨h1, h2.1, h2.2.2.1⟩

/-- Claim C3 amended: on candles with low ≤ high, a LONG result satisfies
stop ≤ entry ≤ take-profit and the 2:1 identity up to 3e-8 of accumulated
8-decimal rounding, and a SHORT result the mirror ordering; strictness of
the inequalities can fail when 1.5 times the ATR is below the rounding
granularity. -/
theorem price_levels_amended (sym : String) (df : List Candle)
    (s : Except String (List Candle)) (hlh : ∀ c ∈ df, c.low ≤ c.high) :
    ((analyze sym (.ok (some df)) s).verdict = Verdict.LONG →
      ∃ e st t, (analyze sym (.ok (some df)) s).entry = some e ∧
        (analyze sym (.ok (some df)) s).stop = some st ∧
        (analyze sym (.ok (some df)) s).tp = some t ∧
        st ≤ e ∧ e ≤ t ∧ |(t - e) - 2 * (e - st)| ≤ 3 / 100000000) ∧
    ((analyze sym (.ok (some df)) s).verdict = Verdict.SHORT →
      ∃ e st t, (analyze sym (.ok (some df)) s).entry = some e ∧
        (analyze sym (.ok (some df)) s).stop = some st ∧
        (analyze sym (.ok (some df)) s).tp = some t ∧
        t ≤ e ∧ e ≤ st ∧ |(e - t) - 2 * (st - e)| ≤ 3 / 100000000) := by
  have ha : 0 ≤ atrVal df := atrVal_nonneg hlh
  constructor
  · intro h
    by_cases hlen : df.length < 60
    · exfalso
      unfold analyze at h
      dsimp only at h
      rw [if_pos hlen] at h
      exact absurd h (by simp [errResult])
    · rw [analyze_of_len sym df s (by omega)] at h ⊢
      rw [analyzeOk_verdict] at h
      by_cases hl : longCond df s
      · rw [analyzeOk_entry, analyzeOk_stop, analyzeOk_tp]
        simp only [hl, if_true]
        refine ⟨round8 (entryVal df),
          round8 (entryVal df - atrVal df * (3 / 2)),
          round8 (entryVal df + (entryVal df - (entryVal df - atrVal df * (3 / 2))) * 2),
          rfl, rfl, rfl, ?_, ?_, ?_⟩
        · exact round8_mono (by linarith)
        · exact round8_mono (by nlinarith)
        · have h1 := abs_round8_sub
            (entryVal df + (entryVal df - (entryVal df - atrVal df * (3 / 2))) * 2)
          have h2 := abs_round8_sub (entryVal df)
          have h3 := abs_round8_sub (entryVal df - atrVal df * (3 / 2))
          rw [abs_le] at h1 h2 h3 ⊢
          constructor
          · nlinarith [h1.1, h2.2, h3.1]
          · nlinarith [h1.2, h2.1, h3.2]
      · by_cases hs : shortCond df s <;> simp [hl, hs] at h
  · intro h
    by_cases hlen : df.length < 60
    · exfalso
      unfold analyze at h
      dsimp only at h
      rw [if_pos hlen] at h
      exact absurd h (by simp [errResult])
    · rw [analyze_of_len sym df s (by omega)] at h ⊢
      rw [analyzeOk_verdict] at h
      by_cases hl : longCond df s
      · simp [hl] at h
      · by_cases hs : shortCond df s
        · rw [analyzeOk_entry, analyzeOk_stop, analyzeOk_tp]
          simp only [hl, hs, if_true, if_false, Bool.false_eq_true, ite_false, ite_true]
          refine ⟨round8 (entryVal df),
            round8 (entryVal df + atrVal df * (3 / 2)),
            round8 (entryVal df - (entryVal df + atrVal df * (3 / 2) - entryVal df) * 2),
            rfl, rfl, rfl, ?_, ?_, ?_⟩
          · exact round8_mono (by nlinarith)
          · exact round8_mono (by linarith)
          · have h1 := abs_round8_sub
              (entryVal df - (entryVal df + atrVal df * (3 / 2) - entryVal df) * 2)
            have h2 := abs_round8_sub (entryVal df)
            have h3 := abs_round8_sub (entryVal df + atrVal df * (3 / 2))
            rw [abs_le] at h1 h2 h3 ⊢
            constructor
            · nlinarith [h1.2, h2.1, h3.2]
            · nlinarith [h1.1, h2.2, h3.1]
        · simp [hl, hs] at h

/-- A Wilder fold over all-zero true ranges stays at zero. -/
theorem wilder_foldl_zero (l : List ℚ) (h : ∀ x ∈ l, x = 0) :
    l.foldl (fun a x => (13 * a + x) / 14) 0 = 0 := by
  induction l with
  | nil => rfl
  | cons x xs ih =>
    have hx : x = 0 := h x (List.mem_cons_self x xs)
    rw [List.foldl_cons]
    have hstep : (13 * (0 : ℚ) + x) / 14 = 0 := by rw [hx]; norm_num
    rw [hstep]
    exact ih fun y hy => h y (List.mem_cons_of_mem _ hy)

/-- The mean of an all-zero list is zero. -/
theorem mean_zero (l : List ℚ) (h : ∀ x ∈ l, x = 0) : mean l = 0 := by
  unfold mean
  rw [List.sum_eq_zero h, zero_div]

/-- With every true range zero the last ATR value is exactly zero. -/
theorem atrLast_zero {df : List Candle} (h14 : 14 ≤ df.length)
    (h : ∀ x ∈ trueRanges df, x = 0) : atrLast df = some 0 := by
  unfold atrLast
  rw [if_pos h14]
  dsimp only
  have hm : mean ((trueRanges df).take 14) = 0 :=
    mean_zero _ fun x hx => h x ((List.take_sublist _ _).mem hx)
  rw [hm]
  exact congrArg some
    (wilder_foldl_zero _ fun x hx => h x ((List.drop_sublist _ _).mem hx))

set_option maxRecDepth 10000 in
/-- Every true range of the crossing series is zero, because each candle
pins high and low to the previous close. -/
theorem ceSeries_trueRanges_zero : ∀ x ∈ trueRanges ceSeries, x = 0 := by decide

set_option maxRecDepth 10000 in
/-- Counterexample to claim C3 as stated: on the crossing series with zero
true ranges the LONG branch fires with ATR zero, so stop, entry and
take-profit all round to the same price and the strict chain
stop < entry < take-profit fails. -/
theorem long_zero_atr_levels_collapse :
    (analyze "BTCUSDT" (.ok (some ceSeries)) (.error "boom")).verdict = Verdict.LONG ∧
    (analyze "BTCUSDT" (.ok (some ceSeries)) (.error "boom")).stop = some (9587 / 100) ∧
    (analyze "BTCUSDT" (.ok (some ceSeries)) (.error "boom")).entry = some (9587 / 100) ∧
    (analyze "BTCUSDT" (.ok (some ceSeries)) (.error "boom")).tp = some (9587 / 100) := by
  have hA : atrVal ceSeries = 0 := by
    unfold atrVal
    rw [atrLast_zero (by decide) ceSeries_trueRanges_zero]
    rfl
  have hlen : (60 : ℕ) ≤ ceSeries.length := by decide
  have hl : longCond ceSeries (.error "boom") = true := by decide
  have hE : round8 (entryVal ceSeries) = 9587 / 100 := by decide
  rw [analyze_of_len _ _ _ hlen, analyzeOk_verdict, analyzeOk_stop,
    analyzeOk_entry, analyzeOk_tp, if_pos hl, if_pos hl, if_pos hl, hA]
  have e1 : entryVal ceSeries - (0 : ℚ) * (3 / 2) = entryVal ceSeries := by ring
  have e2 : entryVal ceSeries + (entryVal ceSeries - entryVal ceSeries) * 2 =
      entryVal ceSeries := by ring
  rw [e1, e2, hE]
  exact ⟨rfl, rfl, rfl, rfl⟩

set_option maxRecDepth 10000 in
/-- Witness for amended C3: the amended ordering applied to the concrete
LONG result of the crossing series. -/
theorem price_levels_amended_witness :
    (analyze "BTCUSDT" (.ok (some ceSeries)) (.error "x")).verdict = Verdict.LONG ∧
    (∃ e st t, (analyze "BTCUSDT" (.ok (some ceSeries)) (.error "x")).entry = some e ∧
      (analyze "BTCUSDT" (.ok (some ceSeries)) (.error "x")).stop = some st ∧
      (analyze "BTCUSDT" (.ok (some ceSeries)) (.error "x")).tp = some t ∧
      st ≤ e ∧ e ≤ t ∧ |(t - e) - 2 * (e - st)| ≤ 3 / 100000000) := by
  have hv : (analyze "BTCUSDT" (.ok (some ceSeries)) (.error "x")).verdict = Verdict.LONG := by
    have hlen : (60 : ℕ) ≤ ceSeries.length := by decide
    have hl : longCond ceSeries (.error "x") = true := by decide
    rw [analyze_of_len _ _ _ hlen, analyzeOk_verdict, if_pos hl]
  exact ⟨hv, (price_levels_amended "BTCUSDT" ceSeries (.error "x")
    (by decide)).1 hv⟩

end SignalEngine
